import Mathlib

/-!
Verification development for the `hata.discord.ratelimit` module.

The definitions below are a shallow embedding of `src/hata/discord/ratelimit.py`:
  * `RatelimitGroup`, `RatelimitUnit`, `RatelimitHandler` mirror the Python
    classes of the same names (slot for slot, with `None`-able linked chains
    and deques represented as Lean lists).
  * Monotonic clock values and float delays are modelled as rationals; pending
    futures are modelled by opaque numeric identifiers, and releasing a future
    (`Future.set_result`) is modelled by returning the list of released
    identifiers next to the updated handler state.
  * `enter` is an `async` suspension point in the source; it is modelled as a
    function into `EnterResult`, distinguishing an immediate return without
    state change (unlimited), an immediate admission, and a suspension with
    the caller's future appended to the queue.
-/

namespace Hata

/-- `GLOBALLY_LIMITED = 0x4000000000000000` (ratelimit.py line 54). -/
def GLOBALLY_LIMITED : ℕ := 0x4000000000000000

/-- `RATELIMIT_DROP_ROUND = 0.20` (ratelimit.py line 55). -/
def RATELIMIT_DROP_ROUND : ℚ := 1/5

/-- `MAXIMAL_UNLIMITED_PARARELLITY = -50` (ratelimit.py line 56). -/
def MAXIMAL_UNLIMITED_PARARELLITY : ℤ := -50

/-- `UNLIMITED_SIZE_VALUE = -10000` (ratelimit.py line 57). -/
def UNLIMITED_SIZE_VALUE : ℤ := -10000

/-- The `LIMITER_*` string constants of the source, as an enumeration. -/
inductive Limiter
  | channel
  | guild
  | webhook
  | globally
  | unlimited
deriving DecidableEq, Repr

/-- `RatelimitGroup`: `__slots__ = ('group_id', 'limiter', 'size')`. -/
structure RatelimitGroup where
  limiter : Limiter
  size : ℤ
  group_id : ℕ
deriving DecidableEq, Repr

/-- One node of the cooldown ledger: `RatelimitUnit` with
`__slots__ = ('allocates', 'drop', 'next')`; the `next` chain is carried
separately as a Lean list. -/
structure RatelimitUnit where
  drop : ℚ
  allocates : ℤ
deriving DecidableEq, Repr

/-- The `while True` walk inside `RatelimitUnit.update_with`
(ratelimit.py lines 143-171): starting from `last = self`, each `actual`
node is inspected; reaching the end appends a tail node, a node more than
`RATELIMIT_DROP_ROUND` later gets a fresh node inserted before it, a node
more than `RATELIMIT_DROP_ROUND` earlier is walked past, and otherwise the
node is merged (smaller `drop` kept, `allocates` summed). -/
def RatelimitUnit.update_walk : List RatelimitUnit → ℚ → ℤ → List RatelimitUnit
  | [], drop, allocates => [⟨drop, allocates⟩]
  | actual :: rest, drop, allocates =>
    if drop + RATELIMIT_DROP_ROUND < actual.drop then
      ⟨drop, allocates⟩ :: actual :: rest
    else if drop - RATELIMIT_DROP_ROUND > actual.drop then
      actual :: update_walk rest drop allocates
    else
      ⟨if drop < actual.drop then drop else actual.drop, actual.allocates + allocates⟩ :: rest

/-- `RatelimitUnit.update_with(drop, allocates)` (ratelimit.py lines 128-179).
`self` is the head node, `rest` its `next` chain. If the new `drop` is more
than `RATELIMIT_DROP_ROUND` earlier than the head's, a new head is spliced in
(the source copies the old head into a fresh node and overwrites `self` in
place; the resulting chain is the same). If it is more than
`RATELIMIT_DROP_ROUND` later, the tail chain is walked. Otherwise the head is
merged in place. -/
def RatelimitUnit.update_with (self : RatelimitUnit) (rest : List RatelimitUnit)
    (drop : ℚ) (allocates : ℤ) : List RatelimitUnit :=
  if drop + RATELIMIT_DROP_ROUND < self.drop then
    ⟨drop, allocates⟩ :: self :: rest
  else if drop - RATELIMIT_DROP_ROUND > self.drop then
    self :: RatelimitUnit.update_walk rest drop allocates
  else
    ⟨if drop < self.drop then drop else self.drop, self.allocates + allocates⟩ :: rest

/-- The ledger is sorted ascending by expiry time. -/
def ledger_sorted (l : List RatelimitUnit) : Prop :=
  l.Pairwise (fun x y => x.drop ≤ y.drop)

instance : DecidablePred ledger_sorted := fun _ =>
  inferInstanceAs (Decidable (List.Pairwise _ _))

/-- Total allocation count of a ledger chain. -/
def ledger_allocates (l : List RatelimitUnit) : ℤ :=
  (l.map RatelimitUnit.allocates).sum

/-- Updating a possibly-empty ledger (`self.drops` handling in
`RatelimitHandler.exit`, ratelimit.py lines 432-436): a `None` ledger becomes
a single fresh node, otherwise the head's `update_with` is invoked. -/
def ledger_add (drops : List RatelimitUnit) (drop : ℚ) (allocates : ℤ) :
    List RatelimitUnit :=
  match drops with
  | [] => [⟨drop, allocates⟩]
  | head :: rest => head.update_with rest drop allocates

/-- `RatelimitHandler` with
`__slots__ = ('active', 'drops', 'limiter_id', 'parent', 'queue', 'wakeupper')`.
The `drops` chain and the `queue` deque use Lean lists (`None` maps to `[]`,
which the source code treats identically for counting purposes); `wakeupper`
keeps the scheduled callback's `when` time. -/
structure RatelimitHandler where
  parent : RatelimitGroup
  limiter_id : ℕ
  drops : List RatelimitUnit
  active : ℤ
  queue : List ℕ
  wakeupper : Option ℚ
deriving DecidableEq, Repr

/-- `RatelimitHandler.count_drops` (ratelimit.py lines 491-499): sum of the
`allocates` fields over the cooldown chain. -/
def RatelimitHandler.count_drops (self : RatelimitHandler) : ℤ :=
  ledger_allocates self.drops

/-- Outcome of the coroutine `RatelimitHandler.enter`: return with no state
touched (unlimited group), immediate admission, or suspension with the
caller's future queued. -/
inductive EnterResult
  | unlimited
  | admitted (state : RatelimitHandler)
  | suspended (state : RatelimitHandler)
deriving DecidableEq, Repr

/-- Body of `RatelimitHandler.enter` after the size normalisation
(ratelimit.py lines 330-354), with `size` the already-normalised capacity. -/
def RatelimitHandler.enter_sized (self : RatelimitHandler) (future : ℕ)
    (size : ℤ) : EnterResult :=
  let active := self.active
  let left := size - active
  if left ≤ 0 then
    .suspended { self with queue := self.queue ++ [future] }
  else
    let left := left - self.count_drops
    if 0 < left then
      .admitted { self with active := active + 1 }
    else
      .suspended { self with queue := self.queue ++ [future] }

/-- `RatelimitHandler.enter` (ratelimit.py lines 319-354): the unlimited
sentinel returns immediately; `0` is treated as `1` and a negative size as
its absolute value; then the capacity check runs. On suspension the caller's
future is appended to the queue; `active` is only incremented after the
future is resolved and the coroutine resumes, which is past the suspension
this model stops at. -/
def RatelimitHandler.enter (self : RatelimitHandler) (future : ℕ) :
    EnterResult :=
  let size := self.parent.size
  if size < 1 then
    if size = UNLIMITED_SIZE_VALUE then
      .unlimited
    else
      self.enter_sized future (if size = 0 then 1 else -size)
  else
    self.enter_sized future size

/-- `RatelimitHandler.wakeup` (ratelimit.py lines 451-486): pop the expired
head of the cooldown chain, reschedule for the new head if any, then release
`min(size - active - count_drops(), len(queue))` queued futures in FIFO
order. Returns the new state and the released futures. -/
def RatelimitHandler.wakeup (self : RatelimitHandler) :
    RatelimitHandler × List ℕ :=
  let (drops, wakeupper) :=
    match self.drops with
    | [] => ([], (none : Option ℚ))
    | _ :: rest =>
      (rest,
        match rest with
        | [] => (none : Option ℚ)
        | d :: _ => some d.drop)
  let self := { self with drops := drops, wakeupper := wakeupper }
  let queue_ln := self.queue.length
  if queue_ln = 0 then
    (self, [])
  else
    let size := self.parent.size
    let size := if size < 0 then -size else size
    let can_free := size - self.active - self.count_drops
    let can_free := if can_free > (queue_ln : ℤ) then (queue_ln : ℤ) else can_free
    ({ self with queue := self.queue.drop can_free.toNat },
      self.queue.take can_free.toNat)

/-- Response headers as consumed by `RatelimitHandler.exit`. `limit` and
`remaining` model the integer-parsed `RATELIMIT_LIMIT` / `RATELIMIT_REMAINING`
headers (`limit = none` when the header is absent); `reset_delay` models the
seconds between the parsed `RATELIMIT_RESET` and `DATE` headers, and
`reset_after` the parsed `RATELIMIT_RESET_AFTER` header. -/
structure Headers where
  limit : Option ℤ
  remaining : ℤ
  reset_delay : ℚ
  reset_after : ℚ
deriving DecidableEq, Repr

/-- `self.drops` update plus wakeupper scheduling at the end of
`RatelimitHandler.exit` (ratelimit.py lines 430-449): record the cooldown
node and schedule the wakeup callback at `drop` unless one is already
scheduled no later than `drop`. -/
def RatelimitHandler.record_drop (self : RatelimitHandler) (drop : ℚ)
    (allocates : ℤ) : RatelimitHandler :=
  let self := { self with drops := ledger_add self.drops drop allocates }
  match self.wakeupper with
  | none => { self with wakeupper := some drop }
  | some when_ =>
    if when_ ≤ drop then self else { self with wakeupper := some drop }

/-- The cooldown delay computed at ratelimit.py lines 417-428: `1.0` second
on the optimistic (headerless) path, otherwise the smaller of the
reset-minus-date and reset-after header values. -/
def exit_delay (headers : Headers) (optimistic : Bool) : ℚ :=
  if optimistic then 1
  else
    if headers.reset_delay < headers.reset_after then headers.reset_delay
    else headers.reset_after

/-- The post-`break` part of `RatelimitHandler.exit`
(ratelimit.py lines 389-449). `current_size` is the descriptor's size read at
entry, `size` the freshly determined size, `optimistic` whether the
headerless negative-estimate branch produced it. When the new size differs
the descriptor is updated; when capacity grew (after flipping signs on the
optimistic path and promoting an initial `-1` to `1`, with `allocates`
backfilled from the remaining-count header in that `-1` case) up to
`size - current_size` queued futures, bounded by the queue length, are
released. Finally a cooldown node is recorded at `now + delay`. -/
def RatelimitHandler.exit_sized (self : RatelimitHandler) (headers : Headers)
    (current_size size : ℤ) (optimistic : Bool) (now : ℚ) :
    RatelimitHandler × List ℕ :=
  if size ≠ current_size then
    let self := { self with parent := { self.parent with size := size } }
    let current_size := if optimistic then -current_size else current_size
    let size := if optimistic then -size else size
    if current_size < size then
      let allocates :=
        if current_size = -1 then size - headers.remaining else 1
      let current_size := if current_size = -1 then 1 else current_size
      let can_free := size - current_size
      let queue_ln : ℤ := self.queue.length
      let can_free := if can_free > queue_ln then queue_ln else can_free
      (RatelimitHandler.record_drop
          { self with queue := self.queue.drop can_free.toNat }
          (now + exit_delay headers optimistic) allocates,
        self.queue.take can_free.toNat)
    else
      (self.record_drop (now + exit_delay headers optimistic) 1, [])
  else
    (self.record_drop (now + exit_delay headers optimistic) 1, [])

/-- `RatelimitHandler.exit(headers)` (ratelimit.py lines 356-449). The
unlimited sentinel returns untouched; otherwise `active` is decremented.
With no headers, or headers lacking `RATELIMIT_LIMIT` on a non-negative
cached size, the scheduled wakeupper is cancelled and `wakeup` runs
immediately. Headers lacking the limit on a negative (optimistic) cached
size widen the estimate, bounded by `MAXIMAL_UNLIMITED_PARARELLITY`; an
explicit limit is taken as the authoritative size. Returns the new state and
the futures released synchronously. -/
def RatelimitHandler.exit (self : RatelimitHandler) (headers : Option Headers)
    (now : ℚ) : RatelimitHandler × List ℕ :=
  let current_size := self.parent.size
  if current_size = UNLIMITED_SIZE_VALUE then
    (self, [])
  else
    let self := { self with active := self.active - 1 }
    match headers with
    | none => RatelimitHandler.wakeup { self with wakeupper := none }
    | some headers =>
      match headers.limit with
      | none =>
        if current_size < 0 then
          let size :=
            if current_size > MAXIMAL_UNLIMITED_PARARELLITY then
              current_size - 1
            else current_size
          self.exit_sized headers current_size size true now
        else
          RatelimitHandler.wakeup { self with wakeupper := none }
      | some size => self.exit_sized headers current_size size false now

/-- The scope objects `RatelimitProxy.__new__` may receive as its `limiter`
argument: `Guild`, `ChannelBase` subclasses, `Message`, `Role`, `Webhook`,
`WebhookRepr` (each of the latter carrying the id of its owning guild when it
has one), the default `None`, or any other object. -/
inductive Scope
  | noScope
  | guild (id : ℕ)
  | channel (id : ℕ) (guild : Option ℕ)
  | message (channel_id : ℕ) (guild : Option ℕ)
  | role (id : ℕ) (guild : Option ℕ)
  | webhook (id : ℕ) (guild : Option ℕ)
  | webhookRepr (id : ℕ) (guild : Option ℕ)
  | other
deriving DecidableEq, Repr

/-- Python exceptions that `RatelimitProxy` code paths can raise. -/
inductive ProxyError
  | typeError
  | valueError
  | runtimeError
  | attributeError
deriving DecidableEq, Repr

/-- The `limiter_id` resolution of `RatelimitProxy.__new__`
(ratelimit.py lines 527-565). In the guild-limited branch for a channel,
message, role or webhook whose `guild` is set, the source executes
`limiter_id = group.id` (line 554); `RatelimitGroup` declares
`__slots__ = ('group_id', 'limiter', 'size')` and no `id` attribute, so that
statement raises `AttributeError`, modelled here as `.error .attributeError`.
A scope object the branch cannot handle (or one whose guild is missing)
falls through to the `ValueError` at line 565. -/
def resolve_limiter_id (group : RatelimitGroup) (limiter : Scope) :
    Except ProxyError ℕ :=
  match group.limiter with
  | .globally => .ok GLOBALLY_LIMITED
  | .unlimited => .ok 0
  | .channel =>
    match limiter with
    | .channel id _ => .ok id
    | .message channel_id _ => .ok channel_id
    | _ => .error .valueError
  | .guild =>
    match limiter with
    | .guild id => .ok id
    | .channel _ g | .message _ g | .role _ g | .webhook _ g
    | .webhookRepr _ g =>
      match g with
      | some _ => .error .attributeError
      | none => .error .valueError
    | _ => .error .valueError
  | .webhook =>
    match limiter with
    | .webhook id _ => .ok id
    | .webhookRepr id _ => .ok id
    | _ => .error .valueError

/-- `RatelimitProxy.used_count` (ratelimit.py lines 676-682), with `handler`
the resolved shared handler, `none` when none has been resolved. -/
def RatelimitProxy.used_count (handler : Option RatelimitHandler) : ℤ :=
  match handler with
  | none => 0
  | some h => h.active + h.count_drops

/-- Tail of `RatelimitProxy.free_count` after the size normalisation
(ratelimit.py lines 695-699). -/
def RatelimitProxy.free_count_sized (size : ℤ)
    (handler : Option RatelimitHandler) : ℤ :=
  match handler with
  | none => size
  | some h => size - h.active - h.count_drops

/-- `RatelimitProxy.free_count` (ratelimit.py lines 684-699). -/
def RatelimitProxy.free_count (group : RatelimitGroup)
    (handler : Option RatelimitHandler) : ℤ :=
  let size := group.size
  if size < 1 then
    if size = 0 then RatelimitProxy.free_count_sized 1 handler
    else if size = UNLIMITED_SIZE_VALUE then 0
    else RatelimitProxy.free_count_sized (-size) handler
  else RatelimitProxy.free_count_sized size handler

/-- `RatelimitProxy.waiting_count` (ratelimit.py lines 701-711). -/
def RatelimitProxy.waiting_count (handler : Option RatelimitHandler) : ℤ :=
  match handler with
  | none => 0
  | some h => (h.queue.length : ℤ)

/-- `RatelimitProxy.next_reset_at` (ratelimit.py lines 750-760). With no
resolved handler or an empty cooldown chain it returns `0.0`. With a
non-empty chain the source executes `return drops[0].drop`, but `drops` is a
`RatelimitUnit` (which defines neither `__getitem__` nor `__bool__`, so the
preceding `not drops` guard is always `False`), and the subscript raises
`TypeError`, modelled as `.error .typeError`. -/
def RatelimitProxy.next_reset_at (handler : Option RatelimitHandler) :
    Except ProxyError ℚ :=
  match handler with
  | none => .ok 0
  | some h =>
    match h.drops with
    | [] => .ok 0
    | _ :: _ => .error .typeError

/-- `RatelimitProxy.next_reset_after` (ratelimit.py lines 762-772): same
shape as `next_reset_at`, with `monotonic()` (the `now` argument) subtracted
on the non-empty path — which again only runs after the `drops[0]` subscript
raised `TypeError`. -/
def RatelimitProxy.next_reset_after (handler : Option RatelimitHandler)
    (_now : ℚ) : Except ProxyError ℚ :=
  match handler with
  | none => .ok 0
  | some h =>
    match h.drops with
    | [] => .ok 0
    | _ :: _ => .error .typeError

/-- The effective capacity of a handler as the spec words it: `0` is treated
as `1`, a negative size as its absolute value (ratelimit.py lines 320-328,
the normalisation inside `enter`). -/
def effective_size (size : ℤ) : ℤ :=
  if size < 1 then (if size = 0 then 1 else -size) else size

/-- A sequence of `exit` calls, each with its own headers and clock value,
folded over a handler state (futures released along the way are discarded:
only the final handler state is kept). -/
def exit_seq (h : RatelimitHandler) (steps : List (Headers × ℚ)) :
    RatelimitHandler :=
  steps.foldl (fun s p => (s.exit (some p.1) p.2).1) h

/-! Lemmas about the cooldown-ledger walk. -/

lemma update_walk_lb (d : ℚ) (a : ℤ) (lb : ℚ) (hd : lb ≤ d) :
    ∀ t : List RatelimitUnit, (∀ x ∈ t, lb ≤ x.drop) →
      ∀ z ∈ RatelimitUnit.update_walk t d a, lb ≤ z.drop := by
  intro t
  induction t with
  | nil =>
    intro _ z hz
    simp only [RatelimitUnit.update_walk, List.mem_singleton] at hz
    subst hz
    exact hd
  | cons actual rest ih =>
    intro hmem z hz
    simp only [RatelimitUnit.update_walk] at hz
    split_ifs at hz with h1 h2 h3
    · rcases List.mem_cons.1 hz with hz | hz
      · subst hz; exact hd
      · exact hmem z hz
    · rcases List.mem_cons.1 hz with hz | hz
      · rw [hz]; exact hmem actual (List.mem_cons_self actual rest)
      · exact ih (fun x hx => hmem x (List.mem_cons_of_mem _ hx)) z hz
    · rcases List.mem_cons.1 hz with hz | hz
      · subst hz; exact hd
      · exact hmem z (List.mem_cons_of_mem _ hz)
    · rcases List.mem_cons.1 hz with hz | hz
      · rw [hz]; exact hmem actual (List.mem_cons_self actual rest)
      · exact hmem z (List.mem_cons_of_mem _ hz)

lemma update_walk_sorted (d : ℚ) (a : ℤ) :
    ∀ t : List RatelimitUnit, ledger_sorted t →
      ledger_sorted (RatelimitUnit.update_walk t d a) := by
  intro t
  induction t with
  | nil =>
    intro _
    simp [RatelimitUnit.update_walk, ledger_sorted]
  | cons actual rest ih =>
    intro hsort
    have hhead : ∀ y ∈ rest, actual.drop ≤ y.drop :=
      (List.pairwise_cons.1 hsort).1
    have htail : ledger_sorted rest := (List.pairwise_cons.1 hsort).2
    have hR : (0 : ℚ) < RATELIMIT_DROP_ROUND := by
      norm_num [RATELIMIT_DROP_ROUND]
    simp only [RatelimitUnit.update_walk]
    split_ifs with h1 h2 h3
    · rw [ledger_sorted, List.pairwise_cons]
      refine ⟨?_, hsort⟩
      intro y hy
      rcases List.mem_cons.1 hy with hy | hy
      · subst hy; linarith
      · have := hhead y hy; linarith
    · rw [ledger_sorted, List.pairwise_cons]
      have hal : actual.drop ≤ d := by
        simp only [gt_iff_lt] at h2; linarith
      exact ⟨update_walk_lb d a actual.drop hal rest hhead, ih htail⟩
    · rw [ledger_sorted, List.pairwise_cons]
      refine ⟨?_, htail⟩
      intro y hy
      have := hhead y hy
      linarith
    · rw [ledger_sorted, List.pairwise_cons]
      exact ⟨hhead, htail⟩

lemma update_walk_allocates (d : ℚ) (a : ℤ) :
    ∀ t : List RatelimitUnit,
      ledger_allocates (RatelimitUnit.update_walk t d a) =
        ledger_allocates t + a := by
  intro t
  induction t with
  | nil => simp [RatelimitUnit.update_walk, ledger_allocates]
  | cons actual rest ih =>
    simp only [RatelimitUnit.update_walk]
    split_ifs with h1 h2 h3
    · simp [ledger_allocates]; ring
    · simp only [ledger_allocates, List.map_cons, List.sum_cons] at ih ⊢
      rw [ih]; ring
    · simp [ledger_allocates]; ring
    · simp [ledger_allocates]; ring

lemma update_with_eq_walk (h : RatelimitUnit) (t : List RatelimitUnit)
    (d : ℚ) (a : ℤ) :
    h.update_with t d a = RatelimitUnit.update_walk (h :: t) d a := by
  simp only [RatelimitUnit.update_with, RatelimitUnit.update_walk]

/-- Claim C2: `RatelimitUnit.update_with` keeps the ledger sorted ascending
by expiry with temporal coalescing. A drop more than `RATELIMIT_DROP_ROUND`
earlier than the head's is spliced in as a new head with the old head as its
successor; a drop within `RATELIMIT_DROP_ROUND` of the head is merged into it
keeping the smaller drop and summing the allocations (the walked tail behaves
the same way, witnessed by sortedness preservation and allocation-sum
preservation); and concretely, starting from the single node
`(drop = 10.0, allocates = 1)`, `update_with(10.15, 2)` yields the single
node `(drop = 10.0, allocates = 3)` and a subsequent `update_with(20.0, 1)`
yields exactly two nodes. -/
theorem update_with_ledger_spec :
    (∀ (h : RatelimitUnit) (t : List RatelimitUnit) (d : ℚ) (a : ℤ),
      d + RATELIMIT_DROP_ROUND < h.drop →
        h.update_with t d a = ⟨d, a⟩ :: h :: t) ∧
    (∀ (h : RatelimitUnit) (t : List RatelimitUnit) (d : ℚ) (a : ℤ),
      ¬ d + RATELIMIT_DROP_ROUND < h.drop →
      ¬ d - RATELIMIT_DROP_ROUND > h.drop →
        h.update_with t d a = ⟨min d h.drop, h.allocates + a⟩ :: t) ∧
    (∀ (h : RatelimitUnit) (t : List RatelimitUnit) (d : ℚ) (a : ℤ),
      ledger_sorted (h :: t) → ledger_sorted (h.update_with t d a)) ∧
    (∀ (h : RatelimitUnit) (t : List RatelimitUnit) (d : ℚ) (a : ℤ),
      ledger_allocates (h.update_with t d a) =
        ledger_allocates (h :: t) + a) ∧
    RatelimitUnit.update_with ⟨10, 1⟩ [] (203/20) 2 = [⟨10, 3⟩] ∧
    RatelimitUnit.update_with ⟨10, 3⟩ [] 20 1 = [⟨10, 3⟩, ⟨20, 1⟩] := by
  refine ⟨?_, ?_, ?_, ?_, ?_, ?_⟩
  · intro h t d a h1
    simp [RatelimitUnit.update_with, h1]
  · intro h t d a h1 h2
    rw [RatelimitUnit.update_with, if_neg h1, if_neg h2]
    congr 2
    rw [min_def]
    rcases lt_trichotomy d h.drop with hlt | heq | hgt
    · simp [le_of_lt hlt, hlt]
    · simp [heq]
    · simp [not_lt.2 (le_of_lt hgt), not_le.2 hgt]
  · intro h t d a hsort
    rw [update_with_eq_walk]
    exact update_walk_sorted d a (h :: t) hsort
  · intro h t d a
    rw [update_with_eq_walk]
    exact update_walk_allocates d a (h :: t)
  · norm_num [RatelimitUnit.update_with, RATELIMIT_DROP_ROUND]
  · norm_num [RatelimitUnit.update_with, RatelimitUnit.update_walk,
      RATELIMIT_DROP_ROUND]

/-- Witness for claim C2: the head-splice branch at a concrete input, and
sortedness preservation on a concrete sorted ledger. -/
theorem update_with_ledger_spec_witness :
    RatelimitUnit.update_with ⟨10, 1⟩ [] 5 2 = [⟨5, 2⟩, ⟨10, 1⟩] ∧
    ledger_sorted (RatelimitUnit.update_with ⟨10, 1⟩ [⟨12, 4⟩] (203/20) 2) := by
  constructor
  · exact update_with_ledger_spec.1 ⟨10, 1⟩ [] 5 2
      (by norm_num [RATELIMIT_DROP_ROUND])
  · exact update_with_ledger_spec.2.2.1 ⟨10, 1⟩ [⟨12, 4⟩] (203/20) 2
      (by norm_num [ledger_sorted])

/-! Lemmas about `enter`. -/

lemma enter_sized_admits (h : RatelimitHandler) (f : ℕ) (s : ℤ)
    (hd : 0 ≤ h.count_drops) (hpos : 0 < s - h.active - h.count_drops) :
    h.enter_sized f s = .admitted { h with active := h.active + 1 } := by
  rw [RatelimitHandler.enter_sized]
  rw [if_neg (by omega), if_pos (by omega)]

lemma enter_sized_suspends (h : RatelimitHandler) (f : ℕ) (s : ℤ)
    (hnp : s - h.active - h.count_drops ≤ 0) :
    h.enter_sized f s = .suspended { h with queue := h.queue ++ [f] } := by
  rw [RatelimitHandler.enter_sized]
  by_cases hle : s - h.active ≤ 0
  · rw [if_pos hle]
  · rw [if_neg hle, if_neg (by omega)]

lemma enter_eq_sized (h : RatelimitHandler) (f : ℕ)
    (hne : h.parent.size ≠ UNLIMITED_SIZE_VALUE) :
    h.enter f = h.enter_sized f (effective_size h.parent.size) := by
  rw [RatelimitHandler.enter, effective_size]
  by_cases hlt : h.parent.size < 1
  · rw [if_pos hlt, if_pos hlt, if_neg hne]
  · rw [if_neg hlt, if_neg hlt]

/-- Claim C1 (amended): for a handler whose group is not the unlimited
sentinel and whose ledger total is nonnegative, `enter()` computes the
effective size from `parent.size` treating `0` as `1` and a negative value
as its absolute value, and the call suspends — queueing the caller's future —
exactly when the remaining capacity `size - active - count_drops()` is
non-positive; otherwise `active` is incremented by one and the call returns
without suspension. Whether waiters are already queued plays no role in the
decision. When `parent.size` is the unlimited sentinel, `enter()` returns
immediately without modifying any handler state. -/
theorem enter_admission_spec :
    ∀ (h : RatelimitHandler) (f : ℕ),
      (h.parent.size = UNLIMITED_SIZE_VALUE → h.enter f = .unlimited) ∧
      (h.parent.size ≠ UNLIMITED_SIZE_VALUE → 0 ≤ h.count_drops →
        (h.enter f = .suspended { h with queue := h.queue ++ [f] } ↔
          effective_size h.parent.size - h.active - h.count_drops ≤ 0) ∧
        (0 < effective_size h.parent.size - h.active - h.count_drops →
          h.enter f = .admitted { h with active := h.active + 1 })) := by
  intro h f
  constructor
  · intro hu
    rw [RatelimitHandler.enter, hu]
    rw [if_pos (by norm_num [UNLIMITED_SIZE_VALUE]), if_pos rfl]
  · intro hne hd
    constructor
    · constructor
      · intro hsusp
        by_contra hpos
        rw [enter_eq_sized h f hne,
          enter_sized_admits h f (effective_size h.parent.size) hd
            (by omega)] at hsusp
        exact EnterResult.noConfusion hsusp
      · intro hnp
        rw [enter_eq_sized h f hne]
        exact enter_sized_suspends h f (effective_size h.parent.size) hnp
    · intro hpos
      rw [enter_eq_sized h f hne]
      exact enter_sized_admits h f (effective_size h.parent.size) hd hpos

/-- Witness for claim C1: a handler with `size = 2`, one slot in use and an
empty ledger admits immediately; with both slots in use it suspends; with
the unlimited sentinel it returns untouched. -/
theorem enter_admission_spec_witness :
    RatelimitHandler.enter ⟨⟨.channel, 2, 1⟩, 0, [], 1, [], none⟩ 7 =
      .admitted ⟨⟨.channel, 2, 1⟩, 0, [], 2, [], none⟩ ∧
    RatelimitHandler.enter ⟨⟨.channel, 2, 1⟩, 0, [], 2, [], none⟩ 7 =
      .suspended ⟨⟨.channel, 2, 1⟩, 0, [], 2, [7], none⟩ ∧
    RatelimitHandler.enter ⟨⟨.unlimited, -10000, 0⟩, 0, [], 0, [], none⟩ 7 =
      .unlimited := by
  refine ⟨?_, ?_, ?_⟩
  · exact (enter_admission_spec ⟨⟨.channel, 2, 1⟩, 0, [], 1, [], none⟩ 7).2
      (by norm_num [UNLIMITED_SIZE_VALUE])
      (by norm_num [RatelimitHandler.count_drops, ledger_allocates])
      |>.2 (by norm_num [effective_size, RatelimitHandler.count_drops,
        ledger_allocates])
  · exact ((enter_admission_spec ⟨⟨.channel, 2, 1⟩, 0, [], 2, [], none⟩ 7).2
      (by norm_num [UNLIMITED_SIZE_VALUE])
      (by norm_num [RatelimitHandler.count_drops, ledger_allocates])).1.2
      (by norm_num [effective_size, RatelimitHandler.count_drops,
        ledger_allocates])
  · exact (enter_admission_spec ⟨⟨.unlimited, -10000, 0⟩, 0, [], 0, [], none⟩
      7).1 (by norm_num [UNLIMITED_SIZE_VALUE])

/-- Counterexample for claim C1 as stated: a handler with free remaining
capacity (`size = 1`, `active = 0`, empty ledger) but a non-empty waiter
queue. The claim's "suspends if any waiters are already queued" predicts a
suspension; `enter` admits immediately. -/
theorem enter_admission_counterexample :
    (⟨⟨.channel, 1, 1⟩, 0, [], 0, [31], none⟩ : RatelimitHandler).queue ≠ [] ∧
    RatelimitHandler.enter ⟨⟨.channel, 1, 1⟩, 0, [], 0, [31], none⟩ 99 =
      .admitted ⟨⟨.channel, 1, 1⟩, 0, [], 1, [31], none⟩ ∧
    RatelimitHandler.enter ⟨⟨.channel, 1, 1⟩, 0, [], 0, [31], none⟩ 99 ≠
      .suspended ⟨⟨.channel, 1, 1⟩, 0, [], 0, [31, 99], none⟩ := by
  refine ⟨by simp, rfl, ?_⟩
  intro hcontra
  rw [show RatelimitHandler.enter ⟨⟨.channel, 1, 1⟩, 0, [], 0, [31], none⟩ 99 =
      .admitted ⟨⟨.channel, 1, 1⟩, 0, [], 1, [31], none⟩ from rfl] at hcontra
  exact EnterResult.noConfusion hcontra

/-! Lemmas about `record_drop`, `wakeup` and `exit`. -/

lemma ite_gt_eq_min (x y : ℤ) : (if x > y then y else x) = min x y := by
  rw [min_def]
  split_ifs <;> omega

lemma record_drop_fields (self : RatelimitHandler) (d : ℚ) (a : ℤ) :
    (self.record_drop d a).parent = self.parent ∧
    (self.record_drop d a).queue = self.queue ∧
    (self.record_drop d a).active = self.active ∧
    (self.record_drop d a).drops = ledger_add self.drops d a := by
  rcases self with ⟨p, lid, dr, act, q, w⟩
  rw [RatelimitHandler.record_drop]
  cases w with
  | none => exact ⟨rfl, rfl, rfl, rfl⟩
  | some t =>
    by_cases ht : t ≤ d
    · simp [ht]
    · simp [ht]

lemma wakeup_spec (self : RatelimitHandler) :
    (self.wakeup).1.parent = self.parent ∧
    (self.wakeup).1.active = self.active ∧
    (self.wakeup).1.drops = self.drops.tail ∧
    (self.wakeup).2 = self.queue.take (min
      ((if self.parent.size < 0 then -self.parent.size else self.parent.size)
        - self.active - ledger_allocates self.drops.tail)
      (self.queue.length : ℤ)).toNat ∧
    (self.wakeup).1.queue = self.queue.drop (min
      ((if self.parent.size < 0 then -self.parent.size else self.parent.size)
        - self.active - ledger_allocates self.drops.tail)
      (self.queue.length : ℤ)).toNat := by
  rcases self with ⟨p, lid, dr, act, q, w⟩
  rw [RatelimitHandler.wakeup]
  by_cases hq : q.length = 0
  · have hqnil : q = [] := List.length_eq_zero.1 hq
    subst hqnil
    cases dr with
    | nil => exact ⟨rfl, rfl, rfl, by simp, by simp⟩
    | cons d0 rest =>
      cases rest with
      | nil => exact ⟨rfl, rfl, rfl, by simp, by simp⟩
      | cons d1 rest2 => exact ⟨rfl, rfl, rfl, by simp, by simp⟩
  · cases dr with
    | nil =>
      simp only [List.tail_nil]
      rw [if_neg hq]
      refine ⟨rfl, rfl, rfl, ?_, ?_⟩ <;>
        simp only [RatelimitHandler.count_drops, ite_gt_eq_min]
    | cons d0 rest =>
      simp only [List.tail_cons]
      cases rest with
      | nil =>
        rw [if_neg hq]
        refine ⟨rfl, rfl, rfl, ?_, ?_⟩ <;>
          simp only [RatelimitHandler.count_drops, ite_gt_eq_min]
      | cons d1 rest2 =>
        rw [if_neg hq]
        refine ⟨rfl, rfl, rfl, ?_, ?_⟩ <;>
          simp only [RatelimitHandler.count_drops, ite_gt_eq_min]

lemma record_drop_parent (self : RatelimitHandler) (d : ℚ) (a : ℤ) :
    (self.record_drop d a).parent = self.parent :=
  (record_drop_fields self d a).1

lemma record_drop_queue (self : RatelimitHandler) (d : ℚ) (a : ℤ) :
    (self.record_drop d a).queue = self.queue :=
  (record_drop_fields self d a).2.1

lemma record_drop_active (self : RatelimitHandler) (d : ℚ) (a : ℤ) :
    (self.record_drop d a).active = self.active :=
  (record_drop_fields self d a).2.2.1

lemma record_drop_drops (self : RatelimitHandler) (d : ℚ) (a : ℤ) :
    (self.record_drop d a).drops = ledger_add self.drops d a :=
  (record_drop_fields self d a).2.2.2

lemma exit_sized_parent_size (self : RatelimitHandler) (hd : Headers)
    (cs size : ℤ) (o : Bool) (now : ℚ) :
    ((self.exit_sized hd cs size o now).1).parent.size =
      (if size ≠ cs then size else self.parent.size) := by
  simp only [RatelimitHandler.exit_sized]
  by_cases h1 : size ≠ cs
  · rw [if_pos h1, if_pos h1]
    by_cases h2 : (if o then -cs else cs) < (if o then -size else size)
    · rw [if_pos h2, record_drop_parent]
    · rw [if_neg h2, record_drop_parent]
  · rw [if_neg h1, if_neg h1, record_drop_parent]

lemma exit_sized_active (self : RatelimitHandler) (hd : Headers)
    (cs size : ℤ) (o : Bool) (now : ℚ) :
    ((self.exit_sized hd cs size o now).1).active = self.active := by
  simp only [RatelimitHandler.exit_sized]
  by_cases h1 : size ≠ cs
  · rw [if_pos h1]
    by_cases h2 : (if o then -cs else cs) < (if o then -size else size)
    · rw [if_pos h2, record_drop_active]
    · rw [if_neg h2, record_drop_active]
  · rw [if_neg h1, record_drop_active]

lemma exit_sized_drops (self : RatelimitHandler) (hd : Headers)
    (cs size : ℤ) (o : Bool) (now : ℚ) :
    ((self.exit_sized hd cs size o now).1).drops =
      ledger_add self.drops (now + exit_delay hd o)
        (if size ≠ cs ∧ (if o then -cs else cs) < (if o then -size else size) ∧
            (if o then -cs else cs) = -1
          then (if o then -size else size) - hd.remaining else 1) := by
  simp only [RatelimitHandler.exit_sized]
  by_cases h1 : size ≠ cs
  · rw [if_pos h1]
    by_cases h2 : (if o then -cs else cs) < (if o then -size else size)
    · rw [if_pos h2, record_drop_drops]
      by_cases h3 : (if o then -cs else cs) = -1
      · have h2m : (-1 : ℤ) < (if o then -size else size) := h3 ▸ h2
        simp [h1, h2, h3, h2m]
      · simp [h1, h2, h3]
    · rw [if_neg h2, record_drop_drops]
      simp [h2]
  · rw [if_neg h1, record_drop_drops]
    simp [h1]

lemma exit_sized_released (self : RatelimitHandler) (hd : Headers)
    (cs size : ℤ) (o : Bool) (now : ℚ) :
    (self.exit_sized hd cs size o now).2 =
      self.queue.take
        (if size ≠ cs ∧ (if o then -cs else cs) < (if o then -size else size)
          then min ((if o then -size else size) -
              (if (if o then -cs else cs) = -1 then 1
                else (if o then -cs else cs)))
            (self.queue.length : ℤ)
          else 0).toNat := by
  simp only [RatelimitHandler.exit_sized]
  by_cases h1 : size ≠ cs
  · rw [if_pos h1]
    by_cases h2 : (if o then -cs else cs) < (if o then -size else size)
    · simp [h1, h2, ite_gt_eq_min]
    · rw [if_neg h2]
      simp [h1, h2]
  · rw [if_neg h1]
    simp [h1]

lemma exit_sized_queue (self : RatelimitHandler) (hd : Headers)
    (cs size : ℤ) (o : Bool) (now : ℚ) :
    ((self.exit_sized hd cs size o now).1).queue =
      self.queue.drop
        (if size ≠ cs ∧ (if o then -cs else cs) < (if o then -size else size)
          then min ((if o then -size else size) -
              (if (if o then -cs else cs) = -1 then 1
                else (if o then -cs else cs)))
            (self.queue.length : ℤ)
          else 0).toNat := by
  simp only [RatelimitHandler.exit_sized]
  by_cases h1 : size ≠ cs
  · rw [if_pos h1]
    by_cases h2 : (if o then -cs else cs) < (if o then -size else size)
    · rw [if_pos h2, record_drop_queue]
      simp [h1, h2, ite_gt_eq_min]
    · rw [if_neg h2, record_drop_queue]
      simp [h1, h2]
  · rw [if_neg h1, record_drop_queue]
    simp [h1]

lemma exit_with_limit_eq (h : RatelimitHandler) (hd : Headers) (now : ℚ)
    (L : ℤ) (hne : h.parent.size ≠ UNLIMITED_SIZE_VALUE)
    (hlim : hd.limit = some L) :
    h.exit (some hd) now =
      RatelimitHandler.exit_sized { h with active := h.active - 1 } hd
        h.parent.size L false now := by
  simp only [RatelimitHandler.exit, hlim]
  rw [if_neg hne]

lemma exit_opt_eq (h : RatelimitHandler) (hd : Headers) (now : ℚ)
    (hne : h.parent.size ≠ UNLIMITED_SIZE_VALUE) (hlim : hd.limit = none)
    (hneg : h.parent.size < 0) :
    h.exit (some hd) now =
      RatelimitHandler.exit_sized { h with active := h.active - 1 } hd
        h.parent.size
        (if MAXIMAL_UNLIMITED_PARARELLITY < h.parent.size then
          h.parent.size - 1 else h.parent.size)
        true now := by
  simp only [RatelimitHandler.exit, hlim]
  rw [if_neg hne, if_pos hneg]

lemma exit_opt_nonneg_eq (h : RatelimitHandler) (hd : Headers) (now : ℚ)
    (hne : h.parent.size ≠ UNLIMITED_SIZE_VALUE) (hlim : hd.limit = none)
    (hnneg : ¬ h.parent.size < 0) :
    h.exit (some hd) now =
      RatelimitHandler.wakeup
        { h with active := h.active - 1, wakeupper := none } := by
  simp only [RatelimitHandler.exit, hlim]
  rw [if_neg hne, if_neg hnneg]

lemma exit_none_eq (h : RatelimitHandler) (now : ℚ)
    (hne : h.parent.size ≠ UNLIMITED_SIZE_VALUE) :
    h.exit none now =
      RatelimitHandler.wakeup
        { h with active := h.active - 1, wakeupper := none } := by
  rw [RatelimitHandler.exit]
  rw [if_neg hne]

/-- Claim C4 (amended): on a non-unlimited handler, `exit(None)` decrements
`active`, cancels any scheduled wakeup and immediately runs `wakeup`: no
cooldown node is recorded (the ledger can only lose its expired head), and
the pending waiters released are the first
`min(effective size - active - count_drops(), len(queue))` of the queue —
all of them only when free capacity covers the whole queue. -/
theorem exit_none_spec :
    ∀ (h : RatelimitHandler) (now : ℚ),
      h.parent.size ≠ UNLIMITED_SIZE_VALUE →
      (h.exit none now =
        RatelimitHandler.wakeup
          { h with active := h.active - 1, wakeupper := none }) ∧
      ((h.exit none now).1.drops = h.drops.tail) ∧
      ((h.exit none now).2 = h.queue.take (min
        ((if h.parent.size < 0 then -h.parent.size else h.parent.size)
          - (h.active - 1) - ledger_allocates h.drops.tail)
        (h.queue.length : ℤ)).toNat) := by
  intro h now hne
  have he := exit_none_eq h now hne
  have hw := wakeup_spec { h with active := h.active - 1, wakeupper := none }
  refine ⟨he, ?_, ?_⟩
  · rw [he]
    simpa using hw.2.2.1
  · rw [he]
    simpa using hw.2.2.2.1

/-- Witness for claim C4: with `size = 2`, two queued waiters, `active = 1`
and an empty ledger, `exit(None)` releases both waiters and records no
cooldown node. -/
theorem exit_none_spec_witness :
    ((⟨⟨.globally, 2, 1⟩, 0, [], 1, [21, 22], some 9⟩ :
        RatelimitHandler).exit none 0).2 = [21, 22] ∧
    ((⟨⟨.globally, 2, 1⟩, 0, [], 1, [21, 22], some 9⟩ :
        RatelimitHandler).exit none 0).1.drops = [] := by
  have hs := exit_none_spec ⟨⟨.globally, 2, 1⟩, 0, [], 1, [21, 22], some 9⟩ 0
    (by norm_num [UNLIMITED_SIZE_VALUE])
  constructor
  · rw [hs.2.2]
    norm_num [ledger_allocates]
  · rw [hs.2.1]
    rfl

/-- Counterexample for claim C4 as stated: on a handler with two queued
waiters and `active = 1` but `size = 1`, `exit(None)` releases only the
first waiter, not both — the release count is bounded by the free capacity,
which the claim omits. -/
theorem exit_none_counterexample :
    ((⟨⟨.globally, 1, 1⟩, 0, [], 1, [21, 22], some 9⟩ :
        RatelimitHandler).exit none 0).2 = [21] ∧
    ((⟨⟨.globally, 1, 1⟩, 0, [], 1, [21, 22], some 9⟩ :
        RatelimitHandler).exit none 0).2 ≠ [21, 22] ∧
    ((⟨⟨.globally, 1, 1⟩, 0, [], 1, [21, 22], some 9⟩ :
        RatelimitHandler).exit none 0).1.drops = [] := by
  refine ⟨rfl, ?_, rfl⟩
  rw [show ((⟨⟨.globally, 1, 1⟩, 0, [], 1, [21, 22], some 9⟩ :
      RatelimitHandler).exit none 0).2 = [21] from rfl]
  simp

/-- Claim C10: on a handler whose descriptor size is still `0` (with the
natural nonnegativity invariants on `active` and the ledger), `wakeup()`
releases no queued waiters whatever the queue holds, because its capacity
computation does not normalise `0` to `1`: free capacity is
`0 - active - count_drops() ≤ 0`. By contrast `enter()` does normalise and
admits a caller on such an idle handler. -/
theorem wakeup_zero_size_spec :
    ∀ (h : RatelimitHandler) (f : ℕ),
      h.parent.size = 0 → 0 ≤ h.active →
      (∀ u ∈ h.drops, 0 ≤ u.allocates) →
      ((h.wakeup).2 = [] ∧ (h.wakeup).1.queue = h.queue) ∧
      (h.active = 0 → h.drops = [] →
        h.enter f = .admitted { h with active := h.active + 1 }) := by
  intro h f hsz hact hall
  have hw := wakeup_spec h
  have htail : 0 ≤ ledger_allocates h.drops.tail := by
    apply List.sum_nonneg
    intro x hx
    rcases List.mem_map.1 hx with ⟨u, hu, rfl⟩
    exact hall u (List.mem_of_mem_tail hu)
  have hmin : (min
      ((if h.parent.size < 0 then -h.parent.size else h.parent.size)
        - h.active - ledger_allocates h.drops.tail)
      (h.queue.length : ℤ)).toNat = 0 := by
    apply Int.toNat_of_nonpos
    refine le_trans (min_le_left _ _) ?_
    rw [hsz]
    norm_num
    omega
  constructor
  · constructor
    · rw [hw.2.2.2.1, hmin, List.take_zero]
    · rw [hw.2.2.2.2, hmin, List.drop_zero]
  · intro ha hd
    rw [enter_eq_sized h f (by rw [hsz]; norm_num [UNLIMITED_SIZE_VALUE])]
    apply enter_sized_admits
    · rw [RatelimitHandler.count_drops, hd]
      simp [ledger_allocates]
    · rw [effective_size, hsz, RatelimitHandler.count_drops, hd, ha]
      norm_num [ledger_allocates]

/-- Witness for claim C10: a handler with `size = 0`, `active = 0`, no
cooldown nodes and two queued waiters — `wakeup` releases none of them and
leaves the queue untouched, while `enter` admits. -/
theorem wakeup_zero_size_spec_witness :
    ((⟨⟨.guild, 0, 1⟩, 0, [], 0, [1, 2], none⟩ :
        RatelimitHandler).wakeup).2 = [] ∧
    ((⟨⟨.guild, 0, 1⟩, 0, [], 0, [1, 2], none⟩ :
        RatelimitHandler).wakeup).1.queue = [1, 2] ∧
    RatelimitHandler.enter ⟨⟨.guild, 0, 1⟩, 0, [], 0, [1, 2], none⟩ 9 =
      .admitted ⟨⟨.guild, 0, 1⟩, 0, [], 1, [1, 2], none⟩ := by
  have hs := wakeup_zero_size_spec ⟨⟨.guild, 0, 1⟩, 0, [], 0, [1, 2], none⟩ 9
    rfl (by norm_num) (by simp)
  exact ⟨hs.1.1, hs.1.2, hs.2 rfl rfl⟩

lemma exit_unlimited_eq (h : RatelimitHandler) (hs : Option Headers)
    (now : ℚ) (hu : h.parent.size = UNLIMITED_SIZE_VALUE) :
    h.exit hs now = (h, []) := by
  simp only [RatelimitHandler.exit]
  rw [if_pos hu]

lemma exit_limit_size (h : RatelimitHandler) (hd : Headers) (now : ℚ)
    (L : ℤ) (hne : h.parent.size ≠ UNLIMITED_SIZE_VALUE)
    (hlim : hd.limit = some L) :
    (h.exit (some hd) now).1.parent.size = L := by
  rw [exit_with_limit_eq h hd now L hne hlim, exit_sized_parent_size]
  by_cases hL : L ≠ h.parent.size
  · rw [if_pos hL]
  · rw [if_neg hL]
    push_neg at hL
    exact hL.symm

/-- Claim C3: on a non-unlimited handler, `exit(headers)` with an explicit
limit header parses it as the authoritative size: the descriptor ends up
holding exactly that size. When capacity grew, the released waiters are the
first `min(new size - old size, len(queue))` of the queue (with an initial
optimistic `-1` promoted to `1` for the difference), and nothing is released
otherwise; when the cached size was still `-1`, the cooldown node recorded
for this response carries `allocates = limit - remaining` backfilled from
the remaining-count header. -/
theorem exit_limit_header_spec :
    ∀ (h : RatelimitHandler) (hd : Headers) (now : ℚ) (L : ℤ),
      h.parent.size ≠ UNLIMITED_SIZE_VALUE → hd.limit = some L →
      ((h.exit (some hd) now).1.parent.size = L) ∧
      (h.parent.size < L →
        (h.exit (some hd) now).2 = h.queue.take
          (min (L - (if h.parent.size = -1 then 1 else h.parent.size))
            (h.queue.length : ℤ)).toNat) ∧
      (¬ h.parent.size < L → (h.exit (some hd) now).2 = []) ∧
      ((h.exit (some hd) now).1.drops =
        ledger_add h.drops (now + exit_delay hd false)
          (if h.parent.size = -1 ∧ h.parent.size < L then L - hd.remaining
            else 1)) := by
  intro h hd now L hne hlim
  refine ⟨exit_limit_size h hd now L hne hlim, ?_, ?_, ?_⟩
  · intro hlt
    rw [exit_with_limit_eq h hd now L hne hlim, exit_sized_released]
    have hne2 : L ≠ h.parent.size := by omega
    simp [hne2, hlt]
  · intro hnlt
    rw [exit_with_limit_eq h hd now L hne hlim, exit_sized_released]
    have hcond : ¬(L ≠ h.parent.size ∧ h.parent.size < L) := by omega
    simp [hcond]
  · rw [exit_with_limit_eq h hd now L hne hlim, exit_sized_drops]
    by_cases hc1 : h.parent.size = -1
    · by_cases hc2 : h.parent.size < L
      · have hlt : (-1 : ℤ) < L := by omega
        have hne3 : ¬L = (-1 : ℤ) := by omega
        simp [hc1, hlt, hne3]
      · have hlt : ¬(-1 : ℤ) < L := by omega
        simp [hc1, hlt]
    · simp [hc1]

/-- Witness for claim C3: `exit` with `RATELIMIT_LIMIT = 5`,
`RATELIMIT_REMAINING = 5` on a handler with prior `size = -1` and one queued
waiter grows the size to `5` and releases exactly that one waiter. -/
theorem exit_limit_header_spec_witness :
    ((⟨⟨.guild, -1, 1⟩, 5, [], 1, [11], none⟩ :
        RatelimitHandler).exit (some ⟨some 5, 5, 3, 4⟩) 0).1.parent.size = 5 ∧
    ((⟨⟨.guild, -1, 1⟩, 5, [], 1, [11], none⟩ :
        RatelimitHandler).exit (some ⟨some 5, 5, 3, 4⟩) 0).2 = [11] := by
  have hs := exit_limit_header_spec ⟨⟨.guild, -1, 1⟩, 5, [], 1, [11], none⟩
    ⟨some 5, 5, 3, 4⟩ 0 5 (by norm_num [UNLIMITED_SIZE_VALUE]) rfl
  refine ⟨hs.1, ?_⟩
  rw [hs.2.1 (by norm_num)]
  norm_num

/-- Claim C5 (amended): on a non-unlimited handler whose cached size is a
negative optimistic estimate, `exit(headers)` with headers lacking the
explicit limit header widens the estimate's magnitude by one — but only
while the estimate is still above `MAXIMAL_UNLIMITED_PARARELLITY = -50`; at
`-50` the size is left unchanged. In both cases a 1-second cooldown entry
with `allocates = 1` is recorded into the ledger. -/
theorem exit_optimistic_widening :
    ∀ (h : RatelimitHandler) (hd : Headers) (now : ℚ),
      hd.limit = none → h.parent.size < 0 →
      h.parent.size ≠ UNLIMITED_SIZE_VALUE →
      ((h.exit (some hd) now).1.parent.size =
        (if MAXIMAL_UNLIMITED_PARARELLITY < h.parent.size then
          h.parent.size - 1 else h.parent.size)) ∧
      ((h.exit (some hd) now).1.drops = ledger_add h.drops (now + 1) 1) := by
  intro h hd now hlim hneg hne
  rw [exit_opt_eq h hd now hne hlim hneg]
  constructor
  · rw [exit_sized_parent_size]
    by_cases hb : MAXIMAL_UNLIMITED_PARARELLITY < h.parent.size
    · rw [if_pos hb, if_pos (by omega)]
    · rw [if_neg hb, if_neg (by omega)]
  · rw [exit_sized_drops]
    have hm : ¬(-h.parent.size = (-1 : ℤ)) := by omega
    simp [exit_delay, hm]

/-- Witness for claim C5: a handler with optimistic size `-1` and a
headerless `exit` moves the size to `-2` and records the 1-second cooldown
node `(drop = 1, allocates = 1)` (clock at `0`). -/
theorem exit_optimistic_widening_witness :
    ((⟨⟨.globally, -1, 1⟩, 0, [], 1, [], none⟩ :
        RatelimitHandler).exit (some ⟨none, 0, 0, 0⟩) 0).1.parent.size = -2 ∧
    ((⟨⟨.globally, -1, 1⟩, 0, [], 1, [], none⟩ :
        RatelimitHandler).exit (some ⟨none, 0, 0, 0⟩) 0).1.drops =
      [⟨1, 1⟩] := by
  have hs := exit_optimistic_widening ⟨⟨.globally, -1, 1⟩, 0, [], 1, [], none⟩
    ⟨none, 0, 0, 0⟩ 0 rfl (by norm_num) (by norm_num [UNLIMITED_SIZE_VALUE])
  constructor
  · rw [hs.1]
    norm_num [MAXIMAL_UNLIMITED_PARARELLITY]
  · rw [hs.2]
    norm_num [ledger_add]

/-- Counterexample for claim C5 as stated: at the bound
`parent.size = -50 = MAXIMAL_UNLIMITED_PARARELLITY`, a headerless `exit`
does not widen the estimate — the size stays `-50` instead of moving to
`-51` as the claim's unconditional "widen by one" demands. -/
theorem exit_optimistic_widening_counterexample :
    ((⟨⟨.globally, -50, 1⟩, 0, [], 1, [], none⟩ :
        RatelimitHandler).exit (some ⟨none, 0, 0, 0⟩) 0).1.parent.size = -50 ∧
    ((⟨⟨.globally, -50, 1⟩, 0, [], 1, [], none⟩ :
        RatelimitHandler).exit (some ⟨none, 0, 0, 0⟩) 0).1.parent.size ≠
      -50 - 1 := by
  have hv : ((⟨⟨.globally, -50, 1⟩, 0, [], 1, [], none⟩ :
      RatelimitHandler).exit (some ⟨none, 0, 0, 0⟩) 0).1.parent.size = -50 := by
    norm_num [RatelimitHandler.exit, RatelimitHandler.exit_sized,
      RatelimitHandler.record_drop, ledger_add, UNLIMITED_SIZE_VALUE,
      MAXIMAL_UNLIMITED_PARARELLITY]
  refine ⟨hv, ?_⟩
  rw [hv]
  omega

/-- Claim C8 (amended): feeding the same headers twice is idempotent on the
descriptor size whenever the headers carry an explicit limit: the second
`exit` leaves `parent.size` exactly where the first left it. (Headers
lacking the limit header are not idempotent on an optimistic descriptor:
each such exit widens the estimate again.) -/
theorem exit_limit_idempotent :
    ∀ (h : RatelimitHandler) (hd : Headers) (now now2 : ℚ) (L : ℤ),
      hd.limit = some L →
      (((h.exit (some hd) now).1.exit (some hd) now2).1.parent.size =
        (h.exit (some hd) now).1.parent.size) := by
  intro h hd now now2 L hlim
  by_cases hne : h.parent.size = UNLIMITED_SIZE_VALUE
  · rw [exit_unlimited_eq h (some hd) now hne]
    rw [exit_unlimited_eq h (some hd) now2 hne]
  · have hsz1 : (h.exit (some hd) now).1.parent.size = L :=
      exit_limit_size h hd now L hne hlim
    by_cases hne2 : L = UNLIMITED_SIZE_VALUE
    · rw [exit_unlimited_eq (h.exit (some hd) now).1 (some hd) now2
        (by rw [hsz1, hne2])]
    · rw [exit_limit_size (h.exit (some hd) now).1 hd now2 L
        (by rw [hsz1]; exact hne2) hlim, hsz1]

/-- Witness for claim C8: the concrete second `exit` with
`RATELIMIT_LIMIT = 5` leaves the size at `5`, where the first left it. -/
theorem exit_limit_idempotent_witness :
    ((((⟨⟨.guild, -1, 1⟩, 5, [], 1, [11], none⟩ :
          RatelimitHandler).exit (some ⟨some 5, 5, 3, 4⟩) 0).1).exit
        (some ⟨some 5, 5, 3, 4⟩) 0).1.parent.size =
      ((⟨⟨.guild, -1, 1⟩, 5, [], 1, [11], none⟩ :
          RatelimitHandler).exit (some ⟨some 5, 5, 3, 4⟩) 0).1.parent.size :=
  exit_limit_idempotent ⟨⟨.guild, -1, 1⟩, 5, [], 1, [11], none⟩
    ⟨some 5, 5, 3, 4⟩ 0 0 5 rfl

/-- Counterexample for claim C8 as stated: with headers lacking the limit
header on an optimistic handler (`size = -1`), the first `exit` moves the
size to `-2` and the identical second `exit` moves it again, to `-3` — the
second call does change the descriptor. -/
theorem exit_limit_idempotent_counterexample :
    ((⟨⟨.globally, -1, 1⟩, 0, [], 1, [], none⟩ :
        RatelimitHandler).exit (some ⟨none, 0, 0, 0⟩) 0).1.parent.size = -2 ∧
    ((((⟨⟨.globally, -1, 1⟩, 0, [], 1, [], none⟩ :
          RatelimitHandler).exit (some ⟨none, 0, 0, 0⟩) 0).1).exit
        (some ⟨none, 0, 0, 0⟩) 0).1.parent.size = -3 ∧
    ((((⟨⟨.globally, -1, 1⟩, 0, [], 1, [], none⟩ :
          RatelimitHandler).exit (some ⟨none, 0, 0, 0⟩) 0).1).exit
        (some ⟨none, 0, 0, 0⟩) 0).1.parent.size ≠
      ((⟨⟨.globally, -1, 1⟩, 0, [], 1, [], none⟩ :
          RatelimitHandler).exit (some ⟨none, 0, 0, 0⟩) 0).1.parent.size := by
  have h1 : ((⟨⟨.globally, -1, 1⟩, 0, [], 1, [], none⟩ :
      RatelimitHandler).exit (some ⟨none, 0, 0, 0⟩) 0).1.parent.size = -2 := by
    norm_num [RatelimitHandler.exit, RatelimitHandler.exit_sized,
      RatelimitHandler.record_drop, ledger_add, UNLIMITED_SIZE_VALUE,
      MAXIMAL_UNLIMITED_PARARELLITY]
  have h2 : ((((⟨⟨.globally, -1, 1⟩, 0, [], 1, [], none⟩ :
        RatelimitHandler).exit (some ⟨none, 0, 0, 0⟩) 0).1).exit
      (some ⟨none, 0, 0, 0⟩) 0).1.parent.size = -3 := by
    norm_num [RatelimitHandler.exit, RatelimitHandler.exit_sized,
      RatelimitHandler.record_drop, ledger_add, UNLIMITED_SIZE_VALUE,
      MAXIMAL_UNLIMITED_PARARELLITY]
  refine ⟨h1, h2, ?_⟩
  rw [h1, h2]
  omega

lemma exit_no_limit_size_step (h : RatelimitHandler) (hd : Headers)
    (now : ℚ) (hlim : hd.limit = none)
    (hne : h.parent.size ≠ UNLIMITED_SIZE_VALUE) :
    (h.exit (some hd) now).1.parent.size =
      (if h.parent.size < 0 ∧ MAXIMAL_UNLIMITED_PARARELLITY < h.parent.size
        then h.parent.size - 1 else h.parent.size) := by
  by_cases hneg : h.parent.size < 0
  · rw [exit_opt_eq h hd now hne hlim hneg, exit_sized_parent_size]
    by_cases hb : MAXIMAL_UNLIMITED_PARARELLITY < h.parent.size
    · rw [if_pos hb, if_pos (by omega), if_pos ⟨hneg, hb⟩]
    · rw [if_neg hb, if_neg (by omega), if_neg (fun hc => hb hc.2)]
  · rw [exit_opt_nonneg_eq h hd now hne hlim hneg,
      (wakeup_spec _).1, if_neg (fun hc => hneg hc.1)]

/-- Claim C9: optimistic widening is bounded by
`MAXIMAL_UNLIMITED_PARARELLITY = -50`. Over any sequence of `exit` calls
whose headers lack the explicit limit header, a descriptor size starting at
or above `-50` never goes below `-50`, and once it equals `-50` further such
exits leave it unchanged. -/
theorem optimistic_widening_bounded :
    ∀ (steps : List (Headers × ℚ)) (h : RatelimitHandler),
      (∀ p ∈ steps, (p.1).limit = none) →
      (MAXIMAL_UNLIMITED_PARARELLITY ≤ h.parent.size →
        MAXIMAL_UNLIMITED_PARARELLITY ≤ (exit_seq h steps).parent.size) ∧
      (h.parent.size = MAXIMAL_UNLIMITED_PARARELLITY →
        (exit_seq h steps).parent.size = MAXIMAL_UNLIMITED_PARARELLITY) := by
  intro steps
  induction steps with
  | nil => exact fun h _ => ⟨fun hb => hb, fun hb => hb⟩
  | cons p rest ih =>
    intro h hall
    have hp : p.1.limit = none := hall p (List.mem_cons_self p rest)
    have hrest : ∀ q ∈ rest, (q.1).limit = none :=
      fun q hq => hall q (List.mem_cons_of_mem _ hq)
    have hseq : exit_seq h (p :: rest) =
        exit_seq (h.exit (some p.1) p.2).1 rest := rfl
    constructor
    · intro hb
      have hne : h.parent.size ≠ UNLIMITED_SIZE_VALUE := by
        simp only [MAXIMAL_UNLIMITED_PARARELLITY] at hb
        simp only [UNLIMITED_SIZE_VALUE]
        omega
      have hstep := exit_no_limit_size_step h p.1 p.2 hp hne
      rw [hseq]
      apply (ih (h.exit (some p.1) p.2).1 hrest).1
      rw [hstep]
      simp only [MAXIMAL_UNLIMITED_PARARELLITY] at hb ⊢
      split_ifs with hc
      · omega
      · omega
    · intro hb
      have hne : h.parent.size ≠ UNLIMITED_SIZE_VALUE := by
        rw [hb]
        simp only [MAXIMAL_UNLIMITED_PARARELLITY, UNLIMITED_SIZE_VALUE]
        omega
      have hstep := exit_no_limit_size_step h p.1 p.2 hp hne
      rw [hseq]
      apply (ih (h.exit (some p.1) p.2).1 hrest).2
      rw [hstep, hb]
      simp only [MAXIMAL_UNLIMITED_PARARELLITY]
      rw [if_neg (by omega)]

/-- Witness for claim C9: two headerless exits take an optimistic `-49`
descriptor to `-50` and keep it there, and from `-50` the size stays
`-50`. -/
theorem optimistic_widening_bounded_witness :
    MAXIMAL_UNLIMITED_PARARELLITY ≤
      (exit_seq ⟨⟨.globally, -49, 1⟩, 0, [], 2, [], none⟩
        [(⟨none, 0, 0, 0⟩, 0), (⟨none, 0, 0, 0⟩, 0)]).parent.size ∧
    (exit_seq ⟨⟨.globally, -50, 1⟩, 0, [], 2, [], none⟩
        [(⟨none, 0, 0, 0⟩, 0), (⟨none, 0, 0, 0⟩, 0)]).parent.size =
      MAXIMAL_UNLIMITED_PARARELLITY := by
  constructor
  · exact (optimistic_widening_bounded
      [(⟨none, 0, 0, 0⟩, 0), (⟨none, 0, 0, 0⟩, 0)]
      ⟨⟨.globally, -49, 1⟩, 0, [], 2, [], none⟩
      (by intro q hq; simp at hq; rw [hq])).1
      (by norm_num [MAXIMAL_UNLIMITED_PARARELLITY])
  · exact (optimistic_widening_bounded
      [(⟨none, 0, 0, 0⟩, 0), (⟨none, 0, 0, 0⟩, 0)]
      ⟨⟨.globally, -50, 1⟩, 0, [], 2, [], none⟩
      (by intro q hq; simp at hq; rw [hq])).2
      (by norm_num [MAXIMAL_UNLIMITED_PARARELLITY])

/-- Claim C6: resolving `limiter_id` for a guild-limited group. A `Guild`
scope object resolves to its own id and a wrong-typed or guild-less scope
object raises a value error, as the claim says; but a channel (or message,
role, webhook) that does have an owning guild hits the source line
`limiter_id = group.id` — `RatelimitGroup` has no `id` attribute, so the
construction raises `AttributeError` instead of resolving to the guild's
id. The surrounding code (fetching `limiter.guild` and checking it for
`None`) shows `guild.id` was intended. -/
theorem proxy_guild_limiter_evaluation :
    resolve_limiter_id ⟨.guild, 0, 42⟩ (.guild 99) = .ok 99 ∧
    resolve_limiter_id ⟨.guild, 0, 42⟩ (.channel 7 (some 99)) =
      .error .attributeError ∧
    resolve_limiter_id ⟨.guild, 0, 42⟩ (.channel 7 (some 99)) ≠ .ok 99 ∧
    resolve_limiter_id ⟨.guild, 0, 42⟩ (.channel 7 none) =
      .error .valueError ∧
    resolve_limiter_id ⟨.guild, 0, 42⟩ .other = .error .valueError := by
  refine ⟨rfl, rfl, ?_, rfl, rfl⟩
  intro hcontra
  rw [show resolve_limiter_id ⟨.guild, 0, 42⟩ (.channel 7 (some 99)) =
    .error .attributeError from rfl] at hcontra
  exact Except.noConfusion hcontra

/-- Claim C7: the introspection properties return zero/neutral defaults
with no resolved handler, and `next_reset_at` returns `0.0` on an empty
cooldown chain; but on a non-empty chain the source executes `drops[0]` on
a `RatelimitUnit`, which is not subscriptable, raising `TypeError` instead
of returning the earliest expiry — `next_reset_after` likewise. -/
theorem proxy_introspection_evaluation :
    RatelimitProxy.used_count none = 0 ∧
    RatelimitProxy.free_count ⟨.guild, 3, 7⟩ none = 3 ∧
    RatelimitProxy.waiting_count none = 0 ∧
    RatelimitProxy.next_reset_at none = .ok 0 ∧
    RatelimitProxy.next_reset_after none 5 = .ok 0 ∧
    RatelimitProxy.next_reset_at
      (some ⟨⟨.guild, 3, 7⟩, 0, [], 0, [], none⟩) = .ok 0 ∧
    RatelimitProxy.next_reset_at
      (some ⟨⟨.guild, 3, 7⟩, 0, [⟨10, 1⟩], 0, [], none⟩) =
      .error .typeError ∧
    RatelimitProxy.next_reset_at
      (some ⟨⟨.guild, 3, 7⟩, 0, [⟨10, 1⟩], 0, [], none⟩) ≠ .ok 10 ∧
    RatelimitProxy.next_reset_after
      (some ⟨⟨.guild, 3, 7⟩, 0, [⟨10, 1⟩], 0, [], none⟩) 4 =
      .error .typeError := by
  refine ⟨rfl, rfl, rfl, rfl, rfl, rfl, rfl, ?_, rfl⟩
  intro hcontra
  rw [show RatelimitProxy.next_reset_at
    (some ⟨⟨.guild, 3, 7⟩, 0, [⟨10, 1⟩], 0, [], none⟩) =
    .error .typeError from rfl] at hcontra
  exact Except.noConfusion hcontra

end Hata
